import Mathlib

/-!
Verification of the daily-activity ledger and streak state machine of the
ghostbuster repository, as a shallow embedding of `src/db_operations.py`
and `src/scheduler.py`.

The Supabase store is modelled as three in-memory tables (lists of rows,
one row type per table, mirroring the columns the code reads and writes).
Dates and instants are integers: a date is a day index in the fixed
Singapore timezone, an instant is a microsecond count.  Every function
that in Python calls `datetime.datetime.now(SG_TIMEZONE)` receives the
current date (and, where needed, the current instant) as an explicit
argument.  Functions that mutate the store take the database and return
the new database.

Storage failures (exceptions raised by a Supabase call) are modelled by
separate fault-injected variants, suffixed `_f`, whose extra argument
says which storage call raises; the Python `try/except` blocks are
embedded as early returns of the except-branch value, keeping whatever
writes were already executed.
-/

/-- A row of the `tracked_users` table (columns used by the code). -/
structure TrackedUser where
  chat_id : Int
  user_id : Int
  username : Option String
deriving Repr, DecidableEq

/-- A row of the `user_streaks` table.  `last_activity_date` is nullable:
the row inserted by `add_tracked_user` does not set it. -/
structure StreakRow where
  chat_id : Int
  user_id : Int
  success_streak : Int
  failure_streak : Int
  last_activity_date : Option Int
deriving Repr, DecidableEq

/-- A row of the `daily_activity` table. -/
structure ActivityRow where
  chat_id : Int
  user_id : Int
  activity_date : Int
  messaged : Bool
  first_message_time : Option Int
deriving Repr, DecidableEq

/-- The three tables of the Supabase store. -/
structure DB where
  tracked_users : List TrackedUser
  user_streaks : List StreakRow
  daily_activity : List ActivityRow
deriving Repr, DecidableEq

def emptyDB : DB := ⟨[], [], []⟩

/-- The `.eq(chat_id).eq(user_id)` filter on `tracked_users`. -/
def trackedKey (c u : Int) (r : TrackedUser) : Bool :=
  r.chat_id == c && r.user_id == u

/-- The `.eq(chat_id).eq(user_id)` filter on `user_streaks`. -/
def streakKey (c u : Int) (r : StreakRow) : Bool :=
  r.chat_id == c && r.user_id == u

/-- The `.eq(chat_id).eq(user_id).eq(activity_date)` filter on `daily_activity`. -/
def activityKey (c u d : Int) (r : ActivityRow) : Bool :=
  r.chat_id == c && r.user_id == u && r.activity_date == d

/-- `is_user_tracked` (db_operations.py, lines 110-131), success path:
the select on `tracked_users` filtered by chat and user, truthiness of
`result.data`. -/
def is_user_tracked (db : DB) (c u : Int) : Bool :=
  db.tracked_users.any (trackedKey c u)

/-- `get_user_streak` (db_operations.py, lines 299-323), success path:
first row of the select on `user_streaks`, or nothing. -/
def get_user_streak (db : DB) (c u : Int) : Option StreakRow :=
  db.user_streaks.find? (streakKey c u)

/-- The select on `daily_activity` for one `(chat, user, date)` key,
returning its first row (the key is unique in an intact store). -/
def lookupActivity (db : DB) (c u d : Int) : Option ActivityRow :=
  db.daily_activity.find? (activityKey c u d)

/-- The select on `daily_activity` with the extra `.eq(messaged, True)`
filter, reduced to whether it returns any row. -/
def hasMessagedRow (db : DB) (c u d : Int) : Bool :=
  (db.daily_activity.find? (fun r => activityKey c u d r && r.messaged)).isSome

/-- INSERT into `tracked_users`. -/
def insertTracked (db : DB) (c u : Int) (username : Option String) : DB :=
  { db with tracked_users := db.tracked_users ++ [⟨c, u, username⟩] }

/-- INSERT into `user_streaks` of the zeroed row written by
`add_tracked_user` (no `last_activity_date`). -/
def insertStreakInit (db : DB) (c u : Int) : DB :=
  { db with user_streaks := db.user_streaks ++ [⟨c, u, 0, 0, none⟩] }

/-- INSERT into `daily_activity`. -/
def insertActivity (db : DB) (c u d : Int) (messaged : Bool) (t : Option Int) : DB :=
  { db with daily_activity := db.daily_activity ++ [⟨c, u, d, messaged, t⟩] }

/-- UPDATE on `daily_activity` setting `messaged=True` and
`first_message_time=now` on every row matching the key
(`record_user_message`, lines 215-223). -/
def setActivityMessaged (db : DB) (c u d now : Int) : DB :=
  { db with daily_activity := db.daily_activity.map (fun r =>
      if activityKey c u d r then { r with messaged := true, first_message_time := some now }
      else r) }

/-- UPDATE on `user_streaks` setting the two counters and
`last_activity_date` on every row matching the key
(`update_streak`, lines 283-291). -/
def setStreak (db : DB) (c u s f d : Int) : DB :=
  { db with user_streaks := db.user_streaks.map (fun r =>
      if streakKey c u r then
        { r with success_streak := s, failure_streak := f, last_activity_date := some d }
      else r) }

/-- `update_streak` (db_operations.py, lines 236-296), success path.
If no streak row exists, a row with one counter at 1 is inserted; else
the counters are recomputed from the first existing row and written
back.  Returns the Bool the Python function returns. -/
def update_streak (db : DB) (today c u : Int) (success : Bool) : Bool × DB :=
  match get_user_streak db c u with
  | none =>
      (true, { db with user_streaks := db.user_streaks ++
        [⟨c, u, if success then 1 else 0, if success then 0 else 1, some today⟩] })
  | some cur =>
      let s : Int := if success then cur.success_streak + 1 else 0
      let f : Int := if success then 0 else cur.failure_streak + 1
      (true, setStreak db c u s f today)

/-- The streak-update transition as worded in the specification (section
4.4): on success the success streak grows by one and the failure streak
resets, otherwise symmetrically, and `last_activity_date` becomes the
date of the transition.  Compared against `update_streak` in the C4
theorem. -/
def streakStep (success : Bool) (today : Int) (r : StreakRow) : StreakRow :=
  if success then
    { r with success_streak := r.success_streak + 1, failure_streak := 0,
             last_activity_date := some today }
  else
    { r with success_streak := 0, failure_streak := r.failure_streak + 1,
             last_activity_date := some today }

/-- The absent-row default of the streak-update transition. -/
def defaultStreak (c u : Int) : StreakRow := ⟨c, u, 0, 0, none⟩

/-- Microseconds per day; the day length in the fixed Singapore timezone,
which has no daylight saving transitions. -/
def usPerDay : Int := 86400000000

/-- `seconds_until_midnight` (scheduler.py, lines 45-56), in microseconds.
The current instant is a microsecond count in Singapore local time;
`(now + timedelta(days=1)).replace(hour=0, minute=0, second=0,
microsecond=0)` is the start of the next day, namely
`now - now % usPerDay + usPerDay`, and the function returns the
difference to `now`. -/
def seconds_until_midnight (nowUs : Int) : Int :=
  usPerDay - nowUs.emod usPerDay

/-- `add_tracked_user` (db_operations.py, lines 20-71), success path:
refuse when already tracked, else insert the subscription, the zeroed
streak row and the `messaged=False` entry for today. -/
def add_tracked_user (db : DB) (today c u : Int) (username : Option String) : Bool × DB :=
  if is_user_tracked db c u then (false, db)
  else (true, insertActivity (insertStreakInit (insertTracked db c u username) c u) c u today false none)

/-- `remove_tracked_user` (db_operations.py, lines 74-107), success path.
Only the `tracked_users` row is deleted by this code; removal of
dependent rows is left to a database-level cascade outside the source. -/
def remove_tracked_user (db : DB) (c u : Int) : Bool × DB :=
  if is_user_tracked db c u then
    (true, { db with tracked_users := db.tracked_users.filter (fun r => !(trackedKey c u r)) })
  else (false, db)

/-- `get_user_by_username` (db_operations.py, lines 134-169), success
path: first the exact select on the raw handle, then, if it returns no
row, the select on the handle with a leading marker character. -/
def get_user_by_username (db : DB) (c : Int) (username : String) : Option TrackedUser :=
  match db.tracked_users.find? (fun r => r.chat_id == c && r.username == some username) with
  | some r => some r
  | none => db.tracked_users.find? (fun r => r.chat_id == c && r.username == some ("@" ++ username))

/-- `record_user_message` (db_operations.py, lines 172-233), success
path.  `today` is the activity date of the instant `now`. -/
def record_user_message (db : DB) (today now c u : Int) : (Bool × Bool) × DB :=
  if is_user_tracked db c u then
    match lookupActivity db c u today with
    | none =>
        let db1 := insertActivity db c u today true (some now)
        ((true, true), (update_streak db1 today c u true).2)
    | some row =>
        if row.messaged then ((true, false), db)
        else
          let db1 := setActivityMessaged db c u today now
          ((true, true), (update_streak db1 today c u true).2)
  else ((false, false), db)

/-- A sequence of `record_user_message` calls on the same activity date,
one per instant in the list, returning the result pairs in order
together with the final store. -/
def recordSeq (db : DB) (today c u : Int) : List Int → List (Bool × Bool) × DB
  | [] => ([], db)
  | t :: ts =>
      let r := record_user_message db today t c u
      let rest := recordSeq r.2 today c u ts
      (r.1 :: rest.1, rest.2)

/-- The per-user body of the loop in `get_tracked_users_without_message`
(db_operations.py, lines 342-377), iterated over the snapshot of
`tracked_users`: a user with no `messaged=True` row for today is
reported, and a `messaged=False` row is inserted if the user has no row
at all for today. -/
def sweepUsers (today : Int) : List TrackedUser → DB → List (Int × Int) × DB
  | [], db => ([], db)
  | v :: rest, db =>
      if hasMessagedRow db v.chat_id v.user_id today then sweepUsers today rest db
      else
        let db1 := if (lookupActivity db v.chat_id v.user_id today).isSome then db
                   else insertActivity db v.chat_id v.user_id today false none
        let r := sweepUsers today rest db1
        ((v.chat_id, v.user_id) :: r.1, r.2)

/-- `get_tracked_users_without_message` (db_operations.py, lines
326-382), success path. -/
def get_tracked_users_without_message (db : DB) (today : Int) : List (Int × Int) × DB :=
  sweepUsers today db.tracked_users db

/-- `mark_daily_failures` (db_operations.py, lines 385-402), success
path: list the users without a message today, then update each of their
streaks with `success=False`. -/
def mark_daily_failures (db : DB) (today : Int) : List (Int × Int) × DB :=
  let r := get_tracked_users_without_message db today
  (r.1, r.1.foldl (fun d k => (update_streak d today k.1 k.2 false).2) r.2)

/-- Descending insertion by `activity_date`, modelling the position a
row takes under the `.order(activity_date, desc=True)` clause. -/
def insertByDateDesc (x : ActivityRow) : List ActivityRow → List ActivityRow
  | [] => [x]
  | y :: ys => if x.activity_date ≤ y.activity_date then y :: insertByDateDesc x ys
               else x :: y :: ys

/-- The `.order(activity_date, desc=True)` clause of the history query. -/
def sortByDateDesc : List ActivityRow → List ActivityRow
  | [] => []
  | x :: xs => insertByDateDesc x (sortByDateDesc xs)

/-- The report record built by `get_user_activity_report`. -/
structure Report where
  success_streak : Int
  failure_streak : Int
  daily_history : List ActivityRow
deriving Repr, DecidableEq

/-- `get_user_activity_report` (db_operations.py, lines 405-446),
success path: nothing when no streak row exists, else the two stored
counters plus the `daily_activity` rows of the key whose date lies in
`[today - (days - 1), today]`, ordered by date descending. -/
def get_user_activity_report (db : DB) (today c u days : Int) : Option Report :=
  match get_user_streak db c u with
  | none => none
  | some s =>
      let startDate := today - (days - 1)
      let hist := db.daily_activity.filter (fun r =>
        r.chat_id == c && r.user_id == u &&
        decide (startDate ≤ r.activity_date) && decide (r.activity_date ≤ today))
      some ⟨s.success_streak, s.failure_streak, sortByDateDesc hist⟩

/- ### Fault-injected variants

A storage failure is an exception raised by a Supabase call; the broad
except-blocks of the source catch it and return the function's default
value, keeping whatever writes already executed. -/

/-- `is_user_tracked` when the store is unreachable: the select raises
and the except-branch returns False. -/
def is_user_tracked_f (fail : Bool) (db : DB) (c u : Int) : Bool :=
  if fail then false else is_user_tracked db c u

/-- `get_user_by_username` when the store is unreachable: the except
branch returns the empty dict, here no row. -/
def get_user_by_username_f (fail : Bool) (db : DB) (c : Int) (username : String) :
    Option TrackedUser :=
  if fail then none else get_user_by_username db c username

/-- `record_user_message` when the store is unreachable: the initial
`is_user_tracked` call swallows the failure and yields False, so the
function returns `(False, False)` before touching the store. -/
def record_user_message_f (fail : Bool) (db : DB) (today now c u : Int) :
    (Bool × Bool) × DB :=
  if fail then ((false, false), db) else record_user_message db today now c u

/-- `remove_tracked_user` when the store is unreachable: the except
branch returns False with no write executed. -/
def remove_tracked_user_f (fail : Bool) (db : DB) (c u : Int) : Bool × DB :=
  if fail then (false, db) else remove_tracked_user db c u

/-- `add_tracked_user` with per-call fault injection: `fail n` says that
the n-th storage call of the function raises (0 the duplicate-check
select, 1 the `tracked_users` insert, 2 the `user_streaks` insert, 3 the
`daily_activity` insert).  A raise jumps to the except branch, which
returns False; inserts already executed stay in the store. -/
def add_tracked_user_f (fail : Nat → Bool) (db : DB) (today c u : Int)
    (username : Option String) : Bool × DB :=
  if fail 0 then (false, db)
  else if is_user_tracked db c u then (false, db)
  else if fail 1 then (false, db)
  else
    let db1 := insertTracked db c u username
    if fail 2 then (false, db1)
    else
      let db2 := insertStreakInit db1 c u
      if fail 3 then (false, db2)
      else (true, insertActivity db2 c u today false none)

/-- The sweep loop with per-user fault injection: `failFor c u` says the
`daily_activity` select for that user raises.  The raise propagates out
of the loop (`none`); writes already executed stay. -/
def sweepUsersF (failFor : Int → Int → Bool) (today : Int) :
    List TrackedUser → DB → Option (List (Int × Int)) × DB
  | [], db => (some [], db)
  | v :: rest, db =>
      if failFor v.chat_id v.user_id then (none, db)
      else if hasMessagedRow db v.chat_id v.user_id today then sweepUsersF failFor today rest db
      else
        let db1 := if (lookupActivity db v.chat_id v.user_id today).isSome then db
                   else insertActivity db v.chat_id v.user_id today false none
        match sweepUsersF failFor today rest db1 with
        | (none, db2) => (none, db2)
        | (some l, db2) => (some ((v.chat_id, v.user_id) :: l), db2)

/-- `get_tracked_users_without_message` with fault injection: the broad
except around the whole loop turns a raise into the empty list. -/
def get_tracked_users_without_message_f (failFor : Int → Int → Bool) (db : DB)
    (today : Int) : List (Int × Int) × DB :=
  match sweepUsersF failFor today db.tracked_users db with
  | (none, db2) => ([], db2)
  | (some l, db2) => (l, db2)

/-- `mark_daily_failures` with fault injection in the listing phase
(`update_streak` swallows its own failures and cannot raise here). -/
def mark_daily_failures_f (failFor : Int → Int → Bool) (db : DB) (today : Int) :
    List (Int × Int) × DB :=
  let r := get_tracked_users_without_message_f failFor db today
  (r.1, r.1.foldl (fun d k => (update_streak d today k.1 k.2 false).2) r.2)

/- ### Generic association-list lemmas -/

theorem find?_append_none {α : Type} (p : α → Bool) (l₁ l₂ : List α)
    (h : l₁.find? p = none) : (l₁ ++ l₂).find? p = l₂.find? p := by
  induction l₁ with
  | nil => rfl
  | cons a l ih =>
      rw [List.find?_cons] at h
      rcases hpa : p a with _ | _
      · rw [List.cons_append, List.find?_cons, hpa]
        exact ih (by rwa [hpa] at h)
      · rw [hpa] at h; exact absurd h (by simp)

theorem find?_append_some {α : Type} (p : α → Bool) (l₁ l₂ : List α) (a : α)
    (h : l₁.find? p = some a) : (l₁ ++ l₂).find? p = some a := by
  induction l₁ with
  | nil => exact absurd h (by simp)
  | cons b l ih =>
      rw [List.find?_cons] at h
      rcases hpb : p b with _ | _
      · rw [List.cons_append, List.find?_cons, hpb]
        exact ih (by rwa [hpb] at h)
      · rw [hpb] at h
        rw [List.cons_append, List.find?_cons, hpb]
        exact h

theorem find?_map_pres {α : Type} (g : α → α) (p : α → Bool)
    (hp : ∀ r, p (g r) = p r) (l : List α) :
    (l.map g).find? p = (l.find? p).map g := by
  induction l with
  | nil => rfl
  | cons a l ih =>
      rw [List.map_cons, List.find?_cons, List.find?_cons, hp a]
      rcases hpa : p a with _ | _
      · simpa using ih
      · rfl

theorem any_append {α : Type} (p : α → Bool) (l₁ l₂ : List α) :
    (l₁ ++ l₂).any p = (l₁.any p || l₂.any p) := by
  simp [List.any_append]

/- ### Effect of `update_streak` on lookups -/

theorem setStreak_lookup (db : DB) (c u s f d : Int) :
    get_user_streak (setStreak db c u s f d) c u
      = (get_user_streak db c u).map (fun r =>
          { r with success_streak := s, failure_streak := f, last_activity_date := some d }) := by
  unfold get_user_streak setStreak
  have hpres : ∀ r : StreakRow,
      streakKey c u (if streakKey c u r then
        { r with success_streak := s, failure_streak := f, last_activity_date := some d }
      else r) = streakKey c u r := by
    intro r
    rcases h : streakKey c u r with _ | _
    · simp [h]
    · simp only [if_pos h, streakKey] at h ⊢
      exact h
  rw [show (({ db with user_streaks := db.user_streaks.map (fun r =>
        if streakKey c u r then
          { r with success_streak := s, failure_streak := f, last_activity_date := some d }
        else r) } : DB).user_streaks) = db.user_streaks.map (fun r =>
        if streakKey c u r then
          { r with success_streak := s, failure_streak := f, last_activity_date := some d }
        else r) from rfl,
      find?_map_pres _ (streakKey c u) hpres db.user_streaks]
  rcases hfind : db.user_streaks.find? (streakKey c u) with _ | r
  · rfl
  · have hk : streakKey c u r = true := List.find?_some hfind
    simp [hk]

/-- After `update_streak`, the streak row found for the touched key is
exactly the stepped row. -/
theorem update_streak_lookup (db : DB) (today c u : Int) (success : Bool) :
    get_user_streak (update_streak db today c u success).2 c u
      = some (streakStep success today ((get_user_streak db c u).getD (defaultStreak c u))) := by
  unfold update_streak
  rcases hcur : get_user_streak db c u with _ | cur
  · show (db.user_streaks ++ [_]).find? (streakKey c u) = _
    rw [find?_append_none _ _ _ hcur]
    rcases success with _ | _ <;>
      simp [List.find?, streakKey, streakStep, defaultStreak]
  · show get_user_streak (setStreak db c u _ _ today) c u = _
    rw [setStreak_lookup, hcur]
    rcases success with _ | _ <;> simp [streakStep]

/-- `update_streak` reports success in the fault-free model. -/
theorem update_streak_true (db : DB) (today c u : Int) (success : Bool) :
    (update_streak db today c u success).1 = true := by
  unfold update_streak
  rcases get_user_streak db c u with _ | cur <;> rfl

/- ### Claim C4 -/

/-- C4: the streak-update transition `update_streak` computes the new
state from the current row (defaulting to the zeroed row when absent)
exactly as the specification words it: on success the success streak is
incremented and the failure streak reset, otherwise symmetrically;
`last_activity_date` is always set to the date of the transition, and
the new state is written unconditionally (it is what a subsequent read
of the key observes), with the call reporting success. -/
theorem update_streak_matches_spec (db : DB) (today c u : Int) (success : Bool) :
    (update_streak db today c u success).1 = true ∧
    get_user_streak (update_streak db today c u success).2 c u
      = some (streakStep success today ((get_user_streak db c u).getD (defaultStreak c u))) :=
  ⟨update_streak_true db today c u success, update_streak_lookup db today c u success⟩

theorem find?_map_eq_of_id {α : Type} (g : α → α) (p : α → Bool)
    (hp : ∀ r, p (g r) = p r) (hid : ∀ r, p r = true → g r = r) (l : List α) :
    (l.map g).find? p = l.find? p := by
  rw [find?_map_pres g p hp l]
  rcases h : l.find? p with _ | r
  · rfl
  · simp [hid r (List.find?_some h)]

theorem streakKey_true_iff (c u : Int) (r : StreakRow) :
    streakKey c u r = true ↔ (r.chat_id = c ∧ r.user_id = u) := by
  simp [streakKey]

/-- The field update written by `setStreak` never changes the key fields
of a row. -/
theorem streakKey_set_pres (c u c2 u2 s f d : Int) (r : StreakRow) :
    streakKey c2 u2 (if streakKey c u r then
      { r with success_streak := s, failure_streak := f, last_activity_date := some d }
    else r) = streakKey c2 u2 r := by
  rcases h : streakKey c u r with _ | _ <;> rfl

/-- A streak update for one key leaves the streak row of every other key
unchanged. -/
theorem update_streak_lookup_other (db : DB) (today c u c2 u2 : Int) (success : Bool)
    (hne : ¬(c = c2 ∧ u = u2)) :
    get_user_streak (update_streak db today c u success).2 c2 u2
      = get_user_streak db c2 u2 := by
  unfold update_streak
  rcases hcur : get_user_streak db c u with _ | cur
  · show (db.user_streaks ++ [_]).find? (streakKey c2 u2) = _
    rcases hf : db.user_streaks.find? (streakKey c2 u2) with _ | r
    · rw [find?_append_none _ _ _ hf]
      have hx : streakKey c2 u2
          (⟨c, u, if success then 1 else 0, if success then 0 else 1, some today⟩ : StreakRow)
            = false := by
        rw [Bool.eq_false_iff]
        intro hx
        have hp := (streakKey_true_iff c2 u2 _).mp hx
        exact hne ⟨hp.1, hp.2⟩
      show List.find? (streakKey c2 u2) [_] = _
      rw [List.find?_cons_of_neg _ (by rw [hx]; exact Bool.false_ne_true)]
      exact hf.symm
    · exact (find?_append_some _ _ _ r hf).trans hf.symm
  · show get_user_streak (setStreak db c u _ _ today) c2 u2 = _
    unfold get_user_streak setStreak
    apply find?_map_eq_of_id
    · intro r
      exact streakKey_set_pres c u c2 u2 _ _ today r
    · intro r hr
      have hp := (streakKey_true_iff c2 u2 r).mp hr
      have hk : streakKey c u r = false := by
        rw [Bool.eq_false_iff]
        intro hk
        have hp2 := (streakKey_true_iff c u r).mp hk
        exact hne ⟨hp2.1.symm.trans hp.1, hp2.2.symm.trans hp.2⟩
      simp [hk]

/- ### Claim C2 -/

/-- One invocation of the streak-update transition: a key, the outcome,
and the date of the transition (a success comes from `record_user_message`,
a failure from the sweep). -/
structure StreakOp where
  chat_id : Int
  user_id : Int
  success : Bool
  date : Int
deriving Repr, DecidableEq

/-- A sequence of streak-update transitions applied through
`update_streak`. -/
def applyStreakOps (db : DB) : List StreakOp → DB
  | [] => db
  | o :: os => applyStreakOps (update_streak db o.date o.chat_id o.user_id o.success).2 os

/-- Streak exclusivity for one row: both counters non-negative, and a
positive counter forces the other to zero. -/
def exclusiveRow (r : StreakRow) : Prop :=
  0 ≤ r.success_streak ∧ 0 ≤ r.failure_streak ∧
  (0 < r.success_streak → r.failure_streak = 0) ∧
  (0 < r.failure_streak → r.success_streak = 0)

/-- Streak exclusivity for every row of the store. -/
def streakOk (db : DB) : Prop := ∀ r ∈ db.user_streaks, exclusiveRow r

theorem ok_getD_nonneg (db : DB) (c u : Int) (h : streakOk db) :
    0 ≤ ((get_user_streak db c u).getD (defaultStreak c u)).success_streak ∧
    0 ≤ ((get_user_streak db c u).getD (defaultStreak c u)).failure_streak := by
  rcases hcur : get_user_streak db c u with _ | cur
  · simp [defaultStreak]
  · have he := h cur (List.mem_of_find?_eq_some hcur)
    simpa using ⟨he.1, he.2.1⟩

/-- One streak update preserves exclusivity of every row. -/
theorem update_streak_preserves_ok (db : DB) (today c u : Int) (success : Bool)
    (h : streakOk db) : streakOk (update_streak db today c u success).2 := by
  intro r hr
  rcases hcur : get_user_streak db c u with _ | cur
  · unfold update_streak at hr
    rw [hcur] at hr
    rcases List.mem_append.mp hr with hr1 | hr2
    · exact h r hr1
    · have hre : r = ⟨c, u, if success then 1 else 0, if success then 0 else 1, some today⟩ := by
        simpa using hr2
      subst hre
      rcases success with _ | _ <;> simp [exclusiveRow]
  · unfold update_streak at hr
    rw [hcur] at hr
    rcases List.mem_map.mp hr with ⟨r0, hr0, rfl⟩
    by_cases hk : streakKey c u r0 = true
    · rw [if_pos hk]
      have hce := h cur (List.mem_of_find?_eq_some hcur)
      rcases success with _ | _
      · refine ⟨by simp, ?_, by simp, fun _ => rfl⟩
        show (0 : Int) ≤ cur.failure_streak + 1
        have := hce.2.1; omega
      · refine ⟨?_, by simp, fun _ => rfl, by simp⟩
        show (0 : Int) ≤ cur.success_streak + 1
        have := hce.1; omega
    · rw [if_neg hk]
      exact h r0 hr0

/-- After a streak update for a key, the row found for that key has a
positive counter sum. -/
theorem update_streak_pos (db : DB) (today c u : Int) (success : Bool)
    (h : streakOk db) :
    ∃ r, get_user_streak (update_streak db today c u success).2 c u = some r ∧
      0 < r.success_streak + r.failure_streak := by
  refine ⟨_, update_streak_lookup db today c u success, ?_⟩
  have hn := ok_getD_nonneg db c u h
  rcases success with _ | _ <;> simp [streakStep] <;> omega

theorem applyStreakOps_preserves_ok (ops : List StreakOp) :
    ∀ db : DB, streakOk db → streakOk (applyStreakOps db ops) := by
  induction ops with
  | nil => intro db h; exact h
  | cons o os ih =>
      intro db h
      exact ih _ (update_streak_preserves_ok db o.date o.chat_id o.user_id o.success h)

/-- A positive counter sum at a key survives any further sequence of
streak updates. -/
theorem applyStreakOps_pos (ops : List StreakOp) :
    ∀ db : DB, ∀ c u : Int, streakOk db →
      (∃ r, get_user_streak db c u = some r ∧ 0 < r.success_streak + r.failure_streak) →
      ∃ r, get_user_streak (applyStreakOps db ops) c u = some r ∧
        0 < r.success_streak + r.failure_streak := by
  induction ops with
  | nil => intro db c u _ hpos; exact hpos
  | cons o os ih =>
      intro db c u h hpos
      have h1 := update_streak_preserves_ok db o.date o.chat_id o.user_id o.success h
      by_cases hk : o.chat_id = c ∧ o.user_id = u
      · rcases hk with ⟨hc, hu⟩
        subst hc; subst hu
        exact ih _ _ _ h1 (update_streak_pos db o.date o.chat_id o.user_id o.success h)
      · refine ih _ _ _ h1 ?_
        rwa [update_streak_lookup_other db o.date o.chat_id o.user_id c u o.success hk]

/-- C2: streak exclusivity invariant.  Starting from any store whose
streak rows satisfy exclusivity (in particular the initial zeroed rows),
after every sequence of streak-update transitions every row still
satisfies it — a positive success streak forces the failure streak to
zero and conversely — and every key touched by at least one transition
has a row with a positive counter sum, so both counters are zero only
for keys with no recorded outcome. -/
theorem streak_exclusivity (db : DB) (ops : List StreakOp) (h : streakOk db) :
    streakOk (applyStreakOps db ops) ∧
    ∀ c u : Int, (∃ o ∈ ops, o.chat_id = c ∧ o.user_id = u) →
      ∃ r, get_user_streak (applyStreakOps db ops) c u = some r ∧
        0 < r.success_streak + r.failure_streak := by
  constructor
  · exact applyStreakOps_preserves_ok ops db h
  · induction ops generalizing db with
    | nil =>
        intro c u hex
        rcases hex with ⟨o, ho, _⟩
        cases ho
    | cons o os ih =>
        intro c u hex
        have h1 := update_streak_preserves_ok db o.date o.chat_id o.user_id o.success h
        by_cases hk : o.chat_id = c ∧ o.user_id = u
        · rcases hk with ⟨hc, hu⟩
          subst hc; subst hu
          exact applyStreakOps_pos os _ _ _ h1
            (update_streak_pos db o.date o.chat_id o.user_id o.success h)
        · have hos : ∃ o2 ∈ os, o2.chat_id = c ∧ o2.user_id = u := by
            rcases hex with ⟨o2, ho2, hkey⟩
            rcases List.mem_cons.mp ho2 with rfl | ho2t
            · exact absurd hkey hk
            · exact ⟨o2, ho2t, hkey⟩
          exact ih _ h1 c u hos

/-- Witness for C2 at a concrete input: a success then a failure for the
same key, starting from the empty store. -/
theorem streak_exclusivity_witness :
    streakOk (applyStreakOps emptyDB [⟨1, 1, true, 0⟩, ⟨1, 1, false, 1⟩]) ∧
    ∀ c u : Int,
      (∃ o ∈ ([⟨1, 1, true, 0⟩, ⟨1, 1, false, 1⟩] : List StreakOp),
        o.chat_id = c ∧ o.user_id = u) →
      ∃ r, get_user_streak (applyStreakOps emptyDB [⟨1, 1, true, 0⟩, ⟨1, 1, false, 1⟩]) c u
          = some r ∧ 0 < r.success_streak + r.failure_streak :=
  streak_exclusivity emptyDB [⟨1, 1, true, 0⟩, ⟨1, 1, false, 1⟩]
    (by intro r hr; cases hr)

/- ### Claim C3 -/

theorem find?_map_guarded {α : Type} (p : α → Bool) (f : α → α) (l : List α)
    (hpres : ∀ r, p (if p r then f r else r) = p r) :
    (l.map (fun r => if p r then f r else r)).find? p = (l.find? p).map f := by
  rw [find?_map_pres _ p hpres l]
  rcases h : l.find? p with _ | r
  · rfl
  · simp [List.find?_some h]

/-- A streak update does not touch the `daily_activity` table. -/
theorem update_streak_daily (db : DB) (today c u : Int) (success : Bool) :
    (update_streak db today c u success).2.daily_activity = db.daily_activity := by
  unfold update_streak
  rcases get_user_streak db c u with _ | cur <;> rfl

/-- A streak update does not touch the `tracked_users` table. -/
theorem update_streak_tracked (db : DB) (today c u : Int) (success : Bool) :
    (update_streak db today c u success).2.tracked_users = db.tracked_users := by
  unfold update_streak
  rcases get_user_streak db c u with _ | cur <;> rfl

/-- Marking a day entry as messaged rewrites the entry found for the
key. -/
theorem setActivityMessaged_lookup (db : DB) (c u d now : Int) :
    lookupActivity (setActivityMessaged db c u d now) c u d
      = (lookupActivity db c u d).map
          (fun r => { r with messaged := true, first_message_time := some now }) :=
  find?_map_guarded (activityKey c u d) _ db.daily_activity
    (fun r => by rcases h : activityKey c u d r with _ | _ <;> exact h)

/-- Inserting a fresh day entry makes it the entry found for the key. -/
theorem insertActivity_lookup (db : DB) (c u d : Int) (m : Bool) (t : Option Int)
    (h : lookupActivity db c u d = none) :
    lookupActivity (insertActivity db c u d m t) c u d = some ⟨c, u, d, m, t⟩ := by
  show (db.daily_activity ++ [(⟨c, u, d, m, t⟩ : ActivityRow)]).find? (activityKey c u d) = _
  rw [find?_append_none _ _ _ h]
  simp [List.find?, activityKey]

/-- First qualifying event of the date: the call reports
`(success, first-of-day)`, leaves the subject tracked, leaves the day
entry messaged, and applies exactly one success streak transition. -/
theorem record_first (db : DB) (today t c u : Int)
    (htr : is_user_tracked db c u = true)
    (hun : (lookupActivity db c u today).all (fun r => !r.messaged) = true) :
    (record_user_message db today t c u).1 = (true, true) ∧
    is_user_tracked (record_user_message db today t c u).2 c u = true ∧
    (∃ row, lookupActivity (record_user_message db today t c u).2 c u today = some row ∧
      row.messaged = true) ∧
    get_user_streak (record_user_message db today t c u).2 c u
      = some (streakStep true today ((get_user_streak db c u).getD (defaultStreak c u))) := by
  rcases hlook : lookupActivity db c u today with _ | row
  · have hred : record_user_message db today t c u
        = ((true, true),
           (update_streak (insertActivity db c u today true (some t)) today c u true).2) := by
      unfold record_user_message
      rw [if_pos htr, hlook]
    rw [hred]
    refine ⟨rfl, ?_, ?_, ?_⟩
    · show ((update_streak (insertActivity db c u today true (some t)) today c u true).2.tracked_users).any
        (trackedKey c u) = true
      rw [update_streak_tracked]
      exact htr
    · refine ⟨⟨c, u, today, true, some t⟩, ?_, rfl⟩
      show ((update_streak (insertActivity db c u today true (some t)) today c u true).2.daily_activity).find?
        (activityKey c u today) = _
      rw [update_streak_daily]
      exact insertActivity_lookup db c u today true (some t) hlook
    · exact update_streak_lookup (insertActivity db c u today true (some t)) today c u true
  · have hm : row.messaged = false := by
      rw [hlook] at hun
      simpa using hun
    have hred : record_user_message db today t c u
        = ((true, true),
           (update_streak (setActivityMessaged db c u today t) today c u true).2) := by
      unfold record_user_message
      rw [if_pos htr, hlook]
      simp [hm]
    rw [hred]
    refine ⟨rfl, ?_, ?_, ?_⟩
    · show ((update_streak (setActivityMessaged db c u today t) today c u true).2.tracked_users).any
        (trackedKey c u) = true
      rw [update_streak_tracked]
      exact htr
    · refine ⟨{ row with messaged := true, first_message_time := some t }, ?_, rfl⟩
      show ((update_streak (setActivityMessaged db c u today t) today c u true).2.daily_activity).find?
        (activityKey c u today) = _
      rw [update_streak_daily]
      rw [show ((setActivityMessaged db c u today t).daily_activity).find? (activityKey c u today)
          = lookupActivity (setActivityMessaged db c u today t) c u today from rfl]
      rw [setActivityMessaged_lookup, hlook]
      rfl
    · exact update_streak_lookup (setActivityMessaged db c u today t) today c u true

/-- Once the day entry is messaged, a further event on the same date is
a no-op on the store and reports `isFirstOfDay = false`. -/
theorem record_repeat (db : DB) (today t c u : Int)
    (htr : is_user_tracked db c u = true)
    (row : ActivityRow)
    (hlook : lookupActivity db c u today = some row)
    (hm : row.messaged = true) :
    record_user_message db today t c u = ((true, false), db) := by
  unfold record_user_message
  rw [if_pos htr, hlook]
  simp [hm]

theorem recordSeq_repeat (today c u : Int) (ts : List Int) :
    ∀ db : DB, is_user_tracked db c u = true →
    (∃ row, lookupActivity db c u today = some row ∧ row.messaged = true) →
    recordSeq db today c u ts = (ts.map (fun _ => (true, false)), db) := by
  induction ts with
  | nil => intro db _ _; rfl
  | cons t ts ih =>
      intro db htr hex
      rcases hex with ⟨row, hlook, hm⟩
      have h1 := record_repeat db today t c u htr row hlook hm
      simp [recordSeq, h1, ih db htr ⟨row, hlook, hm⟩]

/-- C3: first-of-day idempotence of the recorder.  For a tracked pair
whose entry for the date is absent or still unmessaged (fresh date, or a
sweeper-created `messaged=False` entry), a sequence of `N ≥ 1` recorder
calls on that date reports first-of-day on exactly the first call and
not on the other `N - 1`, and the net effect on the streak row is
exactly one success transition. -/
theorem record_event_first_of_day (db : DB) (today c u t : Int) (ts : List Int)
    (htr : is_user_tracked db c u = true)
    (hun : (lookupActivity db c u today).all (fun r => !r.messaged) = true) :
    (recordSeq db today c u (t :: ts)).1 = (true, true) :: ts.map (fun _ => (true, false)) ∧
    get_user_streak (recordSeq db today c u (t :: ts)).2 c u
      = some (streakStep true today ((get_user_streak db c u).getD (defaultStreak c u))) := by
  rcases record_first db today t c u htr hun with ⟨hres, htr2, hex, hstreak⟩
  have hrest := recordSeq_repeat today c u ts (record_user_message db today t c u).2 htr2 hex
  constructor
  · show (record_user_message db today t c u).1
        :: (recordSeq (record_user_message db today t c u).2 today c u ts).1 = _
    rw [hres, hrest]
  · show get_user_streak (recordSeq (record_user_message db today t c u).2 today c u ts).2 c u = _
    rw [hrest]
    exact hstreak

/-- One tracked pair with zeroed streaks and no activity rows, state for
the C3 witness. -/
def dbC3 : DB := ⟨[⟨1, 1, some "bob"⟩], [⟨1, 1, 0, 0, none⟩], []⟩

/-- Witness for C3 at a concrete input: three events on date 0. -/
theorem record_event_first_of_day_witness :
    (recordSeq dbC3 0 1 1 (5 :: [6, 7])).1 = (true, true) :: [6, 7].map (fun _ => (true, false)) ∧
    get_user_streak (recordSeq dbC3 0 1 1 (5 :: [6, 7])).2 1 1
      = some (streakStep true 0 ((get_user_streak dbC3 1 1).getD (defaultStreak 1 1))) :=
  record_event_first_of_day dbC3 0 1 1 5 [6, 7] (by decide) (by decide)

/- ### Claim C1 -/

/-- One tracked pair (chat 1, user 1) with zeroed streak counters and no
activity row: the state after enrollment, before any event on date 0. -/
def dbC1 : DB := ⟨[⟨1, 1, none⟩], [⟨1, 1, 0, 0, none⟩], []⟩

/-- C1: the sweep is NOT idempotent per activity date.  For a tracked
pair with no qualifying event on date 0, the first `mark_daily_failures`
call reports the pair and moves the failure streak to 1 as the claim
states, but the second call for the same date reports the pair again and
moves the failure streak to 2: the `messaged=False` entry created by the
first call only suppresses the duplicate insert, not the report or the
streak update. -/
theorem sweep_double_penalty :
    (mark_daily_failures dbC1 0).1 = [(1, 1)] ∧
    get_user_streak (mark_daily_failures dbC1 0).2 1 1 = some ⟨1, 1, 0, 1, some 0⟩ ∧
    (mark_daily_failures (mark_daily_failures dbC1 0).2 0).1 = [(1, 1)] ∧
    get_user_streak (mark_daily_failures (mark_daily_failures dbC1 0).2 0).2 1 1
      = some ⟨1, 1, 0, 2, some 0⟩ := by decide

/- ### Claim C5 -/

/-- C5 counterexample: enrollment is not all-or-nothing.  Starting from
an empty store, if the `user_streaks` insert (the third storage call)
raises, `add_tracked_user_f` reports the enrollment unsuccessful, yet
the `tracked_users` row written just before remains observable while the
streak row and the day entry are absent: a strict non-empty subset of
the three records persists. -/
theorem enroll_partial_state_cex :
    (add_tracked_user_f (fun n => n == 2) emptyDB 0 1 1 none).1 = false ∧
    is_user_tracked (add_tracked_user_f (fun n => n == 2) emptyDB 0 1 1 none).2 1 1 = true ∧
    get_user_streak (add_tracked_user_f (fun n => n == 2) emptyDB 0 1 1 none).2 1 1 = none ∧
    lookupActivity (add_tracked_user_f (fun n => n == 2) emptyDB 0 1 1 none).2 1 1 0 = none := by
  decide

/-- C5 amended: for a not-yet-tracked pair, when no storage call fails
all three writes land and the result is Added (true); when the store
fails at the `user_streaks` insert, the enrollment is reported
unsuccessful but the `tracked_users` insert already executed remains in
the store, so partial state can remain observable. -/
theorem add_tracked_user_amended (db : DB) (today c u : Int) (username : Option String)
    (fail : Nat → Bool)
    (h : is_user_tracked db c u = false)
    (h0 : fail 0 = false) (h1 : fail 1 = false) (h2 : fail 2 = true) :
    add_tracked_user_f fail db today c u username = (false, insertTracked db c u username) ∧
    add_tracked_user_f (fun _ => false) db today c u username
      = (true, insertActivity (insertStreakInit (insertTracked db c u username) c u)
          c u today false none) := by
  constructor
  · simp [add_tracked_user_f, h, h0, h1, h2]
  · simp [add_tracked_user_f, h]

/-- Witness for the amended C5 statement at a concrete input. -/
theorem add_tracked_user_amended_witness :
    add_tracked_user_f (fun n => n == 2) emptyDB 0 1 1 none = (false, insertTracked emptyDB 1 1 none) ∧
    add_tracked_user_f (fun _ => false) emptyDB 0 1 1 none
      = (true, insertActivity (insertStreakInit (insertTracked emptyDB 1 1 none) 1 1)
          1 1 0 false none) :=
  add_tracked_user_amended emptyDB 0 1 1 none (fun n => n == 2)
    (by decide) (by decide) (by decide) (by decide)

/- ### Claim C6 -/

/-- Two tracked pairs in chat 1, both with zeroed streaks and no
activity rows. -/
def dbC6 : DB := ⟨[⟨1, 1, none⟩, ⟨1, 2, none⟩], [⟨1, 1, 0, 0, none⟩, ⟨1, 2, 0, 0, none⟩], []⟩

/-- C6 counterexample: the sweep does NOT isolate per-subject storage
failures.  With two tracked pairs neither of which messaged on date 0, a
storage failure while processing the first pair makes the whole sweep
return the empty list with no write applied: the second pair, which the
fault-free sweep reports, is neither reported nor streak-updated. -/
theorem sweep_abort_discards_cex :
    mark_daily_failures_f (fun c u => c == 1 && u == 1) dbC6 0 = ([], dbC6) ∧
    (mark_daily_failures dbC6 0).1 = [(1, 1), (1, 2)] := by decide

/-- If any tracked subject's processing raises, the sweep loop aborts
with an exception. -/
theorem sweepUsersF_none (failFor : Int → Int → Bool) (today : Int)
    (l : List TrackedUser) :
    ∀ db : DB, (∃ v ∈ l, failFor v.chat_id v.user_id = true) →
      (sweepUsersF failFor today l db).1 = none := by
  induction l with
  | nil => intro db h; rcases h with ⟨v, hv, _⟩; cases hv
  | cons a l ih =>
      intro db h
      by_cases ha : failFor a.chat_id a.user_id = true
      · simp [sweepUsersF, ha]
      · have hl : ∃ v ∈ l, failFor v.chat_id v.user_id = true := by
          rcases h with ⟨v, hv, hf⟩
          rcases List.mem_cons.mp hv with rfl | hv2
          · exact absurd hf ha
          · exact ⟨v, hv2, hf⟩
        rw [sweepUsersF, if_neg ha]
        by_cases hm : hasMessagedRow db a.chat_id a.user_id today
        · rw [if_pos hm]; exact ih db hl
        · rw [if_neg hm]
          rcases hr : sweepUsersF failFor today l
              (if (lookupActivity db a.chat_id a.user_id today).isSome then db
               else insertActivity db a.chat_id a.user_id today false none) with ⟨ol, db2⟩
          have hol : ol = none := by
            have h2 := ih (if (lookupActivity db a.chat_id a.user_id today).isSome then db
                           else insertActivity db a.chat_id a.user_id today false none) hl
            rwa [hr] at h2
          subst hol
          simp [hr]

/-- C6 amended: a storage failure while processing any tracked subject
aborts the whole sweep.  The broad except in
`get_tracked_users_without_message` turns the raise into an empty
result, so the invocation reports no subject at all (including subjects
whose processing had succeeded or was still pending) and applies no
streak update; no failure count is returned. -/
theorem sweep_fault_aborts (failFor : Int → Int → Bool) (db : DB) (today : Int)
    (h : ∃ v ∈ db.tracked_users, failFor v.chat_id v.user_id = true) :
    (mark_daily_failures_f failFor db today).1 = [] ∧
    (mark_daily_failures_f failFor db today).2
      = (sweepUsersF failFor today db.tracked_users db).2 := by
  unfold mark_daily_failures_f get_tracked_users_without_message_f
  rcases hr : sweepUsersF failFor today db.tracked_users db with ⟨ol, db2⟩
  have hol : ol = none := by
    have := sweepUsersF_none failFor today db.tracked_users db h
    rwa [hr] at this
  subst hol
  simp

/-- Witness for the amended C6 statement at a concrete input. -/
theorem sweep_fault_aborts_witness :
    (mark_daily_failures_f (fun c u => c == 1 && u == 1) dbC6 0).1 = [] ∧
    (mark_daily_failures_f (fun c u => c == 1 && u == 1) dbC6 0).2
      = (sweepUsersF (fun c u => c == 1 && u == 1) 0 dbC6.tracked_users dbC6).2 :=
  sweep_fault_aborts (fun c u => c == 1 && u == 1) dbC6 0 (by decide)

/- ### Claim C7 -/

/-- One tracked pair (chat 1, user 1). -/
def dbC7 : DB := ⟨[⟨1, 1, some "alice"⟩], [], []⟩

/-- C7 counterexample: storage failures are not surfaced.  When the
store is unreachable, `is_user_tracked` returns False for a pair that is
in fact tracked — the very same value a caller sees for a pair that was
never enrolled against a healthy store.  No StorageError outcome
distinguishable from the normal negative outcome reaches the caller. -/
theorem storage_error_indistinguishable_cex :
    is_user_tracked_f true dbC7 1 1 = false ∧
    is_user_tracked_f false dbC7 1 1 = true ∧
    is_user_tracked_f false emptyDB 1 1 = false := by decide

/-- C7 amended: when the underlying store fails, the recorder and
registry operations catch the exception internally and return their
negative default — False for `is_user_tracked`, no row for
`get_user_by_username`, `(False, False)` for `record_user_message`,
False for `add_tracked_user` and `remove_tracked_user` — with the store
left as it was and no retry performed; the failure is not
distinguishable by the caller from the NotTracked / AlreadyTracked /
NotFound outcomes. -/
theorem storage_failure_returns_default (db : DB) (today now c u : Int)
    (handle : String) (username : Option String) :
    is_user_tracked_f true db c u = false ∧
    get_user_by_username_f true db c handle = none ∧
    record_user_message_f true db today now c u = ((false, false), db) ∧
    add_tracked_user_f (fun _ => true) db today c u username = (false, db) ∧
    remove_tracked_user_f true db c u = (false, db) :=
  ⟨rfl, rfl, rfl, rfl, rfl⟩

/- ### Claim C8 -/

theorem mem_insertByDateDesc (x a : ActivityRow) (l : List ActivityRow) :
    a ∈ insertByDateDesc x l ↔ a = x ∨ a ∈ l := by
  induction l with
  | nil => simp [insertByDateDesc]
  | cons y ys ih =>
      unfold insertByDateDesc
      by_cases h : x.activity_date ≤ y.activity_date
      · rw [if_pos h]
        simp only [List.mem_cons, ih]
        tauto
      · rw [if_neg h]
        simp only [List.mem_cons]

theorem length_insertByDateDesc (x : ActivityRow) (l : List ActivityRow) :
    (insertByDateDesc x l).length = l.length + 1 := by
  induction l with
  | nil => rfl
  | cons y ys ih =>
      unfold insertByDateDesc
      by_cases h : x.activity_date ≤ y.activity_date
      · rw [if_pos h]
        simp only [List.length_cons, ih]
      · rw [if_neg h]
        rfl

/-- Sorted by activity date, most recent first. -/
def SortedDesc (l : List ActivityRow) : Prop :=
  List.Pairwise (fun a b => b.activity_date ≤ a.activity_date) l

theorem sortedDesc_insert (x : ActivityRow) (l : List ActivityRow)
    (h : SortedDesc l) : SortedDesc (insertByDateDesc x l) := by
  induction l with
  | nil => simp [insertByDateDesc, SortedDesc]
  | cons y ys ih =>
      rcases List.pairwise_cons.mp h with ⟨hy, hys⟩
      unfold insertByDateDesc
      by_cases hle : x.activity_date ≤ y.activity_date
      · rw [if_pos hle]
        refine List.pairwise_cons.mpr ⟨?_, ih hys⟩
        intro z hz
        rcases (mem_insertByDateDesc x z ys).mp hz with rfl | hz2
        · exact hle
        · exact hy z hz2
      · rw [if_neg hle]
        refine List.pairwise_cons.mpr ⟨?_, h⟩
        intro z hz
        rcases List.mem_cons.mp hz with rfl | hz2
        · omega
        · have := hy z hz2; omega

theorem sortedDesc_sortByDateDesc (l : List ActivityRow) : SortedDesc (sortByDateDesc l) := by
  induction l with
  | nil => simp [sortByDateDesc, SortedDesc]
  | cons x xs ih => exact sortedDesc_insert x _ ih

theorem mem_sortByDateDesc (a : ActivityRow) (l : List ActivityRow) :
    a ∈ sortByDateDesc l ↔ a ∈ l := by
  induction l with
  | nil => simp [sortByDateDesc]
  | cons x xs ih =>
      unfold sortByDateDesc
      rw [mem_insertByDateDesc]
      simp [ih]

theorem length_sortByDateDesc (l : List ActivityRow) :
    (sortByDateDesc l).length = l.length := by
  induction l with
  | nil => rfl
  | cons x xs ih =>
      unfold sortByDateDesc
      rw [length_insertByDateDesc, ih]
      rfl

/-- In a store whose `(chat, user, date)` keys are unique, the window
query returns at most one row per date of the window. -/
theorem filter_window_length_le (l : List ActivityRow) (c u startD endD : Int)
    (hkeys : (l.map (fun r => (r.chat_id, r.user_id, r.activity_date))).Nodup) :
    (l.filter (fun r => r.chat_id == c && r.user_id == u &&
        decide (startD ≤ r.activity_date) && decide (r.activity_date ≤ endD))).length
      ≤ (endD + 1 - startD).toNat := by
  set p := fun r : ActivityRow => r.chat_id == c && r.user_id == u &&
      decide (startD ≤ r.activity_date) && decide (r.activity_date ≤ endD) with hp
  have hsub : List.Sublist (l.filter p) l := List.filter_sublist l
  have hkeys2 : ((l.filter p).map (fun r => (r.chat_id, r.user_id, r.activity_date))).Nodup :=
    (hsub.map _).nodup hkeys
  have hnodup : (l.filter p).Nodup := List.Nodup.of_map _ hkeys2
  have hmemp : ∀ r ∈ l.filter p, r.chat_id = c ∧ r.user_id = u ∧
      startD ≤ r.activity_date ∧ r.activity_date ≤ endD := by
    intro r hr
    have hpr := (List.mem_filter.mp hr).2
    rw [hp] at hpr
    simpa [and_assoc] using hpr
  have hinj : ∀ x ∈ l.filter p, ∀ y ∈ l.filter p, x.activity_date = y.activity_date → x = y := by
    intro x hx y hy hdate
    apply List.inj_on_of_nodup_map hkeys2 hx hy
    have hxp := hmemp x hx
    have hyp := hmemp y hy
    rw [hxp.1, hxp.2.1, hyp.1, hyp.2.1, hdate]
  have hdn : ((l.filter p).map (fun r => r.activity_date)).Nodup :=
    List.Nodup.map_on hinj hnodup
  have hsubset : ((l.filter p).map (fun r => r.activity_date)).toFinset
      ⊆ Finset.Icc startD endD := by
    intro d hdmem
    rw [List.mem_toFinset] at hdmem
    rcases List.mem_map.mp hdmem with ⟨r, hr, rfl⟩
    have hb := hmemp r hr
    rw [Finset.mem_Icc]
    exact ⟨hb.2.2.1, hb.2.2.2⟩
  have hcard := Finset.card_le_card hsubset
  rw [List.toFinset_card_of_nodup hdn, Int.card_Icc] at hcard
  calc (l.filter p).length = ((l.filter p).map (fun r => r.activity_date)).length :=
        (List.length_map _ _).symm
    _ ≤ (endD + 1 - startD).toNat := hcard

/-- C8: report correctness.  `get_user_activity_report` returns nothing
exactly when no streak row exists for the pair; otherwise the report
carries the stored success and failure streaks, and its history has at
most `windowDays` entries, each a stored `daily_activity` row of the
pair with activity date inside `[today - (windowDays - 1), today]`,
sorted descending by activity date; dates without a stored row are
simply absent. -/
theorem report_window (db : DB) (today c u days : Int)
    (hd : 0 ≤ days)
    (hkeys : (db.daily_activity.map (fun r => (r.chat_id, r.user_id, r.activity_date))).Nodup) :
    (get_user_activity_report db today c u days = none ↔ get_user_streak db c u = none) ∧
    ∀ rep, get_user_activity_report db today c u days = some rep →
      (∃ s, get_user_streak db c u = some s ∧ rep.success_streak = s.success_streak ∧
        rep.failure_streak = s.failure_streak) ∧
      (rep.daily_history.length : Int) ≤ days ∧
      (∀ e ∈ rep.daily_history, e ∈ db.daily_activity ∧ e.chat_id = c ∧ e.user_id = u ∧
        today - (days - 1) ≤ e.activity_date ∧ e.activity_date ≤ today) ∧
      SortedDesc rep.daily_history := by
  rcases hs : get_user_streak db c u with _ | s
  · constructor
    · simp [get_user_activity_report, hs]
    · intro rep hrep
      rw [show get_user_activity_report db today c u days = none by
        simp [get_user_activity_report, hs]] at hrep
      cases hrep
  · constructor
    · simp [get_user_activity_report, hs]
    · intro rep hrep
      simp only [get_user_activity_report, hs] at hrep
      injection hrep with hrep
      subst hrep
      refine ⟨⟨s, rfl, rfl, rfl⟩, ?_, ?_, ?_⟩
      · show ((sortByDateDesc _).length : Int) ≤ days
        rw [length_sortByDateDesc]
        have hlen := filter_window_length_le db.daily_activity c u
          (today - (days - 1)) today hkeys
        have he : today + 1 - (today - (days - 1)) = days := by ring
        rw [he] at hlen
        omega
      · intro e he
        rw [mem_sortByDateDesc] at he
        have hmem := (List.mem_filter.mp he).1
        have hpr := (List.mem_filter.mp he).2
        simp only [Bool.and_eq_true, beq_iff_eq, decide_eq_true_eq] at hpr
        exact ⟨hmem, hpr.1.1.1, hpr.1.1.2, hpr.1.2, hpr.2⟩
      · exact sortedDesc_sortByDateDesc _

/-- Store for the C8 witness: one streak row and three activity rows for
the pair, one of them outside the 7-day window ending at date 10. -/
def dbC8 : DB :=
  ⟨[⟨1, 1, none⟩], [⟨1, 1, 2, 0, some 10⟩],
   [⟨1, 1, 2, true, some 99⟩, ⟨1, 1, 9, false, none⟩, ⟨1, 1, 10, true, some 5⟩]⟩

/-- Witness for C8 at a concrete input: a 7-day report at date 10. -/
theorem report_window_witness :
    (get_user_activity_report dbC8 10 1 1 7 = none ↔ get_user_streak dbC8 1 1 = none) ∧
    ∀ rep, get_user_activity_report dbC8 10 1 1 7 = some rep →
      (∃ s, get_user_streak dbC8 1 1 = some s ∧ rep.success_streak = s.success_streak ∧
        rep.failure_streak = s.failure_streak) ∧
      (rep.daily_history.length : Int) ≤ 7 ∧
      (∀ e ∈ rep.daily_history, e ∈ dbC8.daily_activity ∧ e.chat_id = 1 ∧ e.user_id = 1 ∧
        10 - (7 - 1) ≤ e.activity_date ∧ e.activity_date ≤ 10) ∧
      SortedDesc rep.daily_history :=
  report_window dbC8 10 1 1 7 (by decide) (by decide)

/- ### Claim C9 -/

/-- C9: dual-form handle lookup.  `get_user_by_username` returns no row
exactly when, among the chat's subscriptions, no row stores the raw
handle or the handle with the leading marker character; it tries the
exact raw form first (a raw hit is returned as found) and falls back to
the marked form otherwise. -/
theorem get_user_by_username_dual (db : DB) (c : Int) (username : String) :
    (get_user_by_username db c username = none ↔
      ∀ r ∈ db.tracked_users, r.chat_id = c →
        (r.username ≠ some username ∧ r.username ≠ some ("@" ++ username))) ∧
    (∀ r, db.tracked_users.find?
        (fun r2 => r2.chat_id == c && r2.username == some username) = some r →
      get_user_by_username db c username = some r) ∧
    (db.tracked_users.find?
        (fun r2 => r2.chat_id == c && r2.username == some username) = none →
      get_user_by_username db c username
        = db.tracked_users.find?
            (fun r2 => r2.chat_id == c && r2.username == some ("@" ++ username))) := by
  refine ⟨?_, ?_, ?_⟩
  · constructor
    · intro hno
      have h1 : db.tracked_users.find?
          (fun r2 => r2.chat_id == c && r2.username == some username) = none := by
        rcases hx : db.tracked_users.find?
            (fun r2 => r2.chat_id == c && r2.username == some username) with _ | r0
        · exact hx
        · exfalso
          unfold get_user_by_username at hno
          simp only [hx] at hno
          exact Option.noConfusion hno
      have h2 : db.tracked_users.find?
          (fun r2 => r2.chat_id == c && r2.username == some ("@" ++ username)) = none := by
        unfold get_user_by_username at hno
        simp only [h1] at hno
        exact hno
      intro r hr hc
      have n1 := List.find?_eq_none.mp h1 r hr
      have n2 := List.find?_eq_none.mp h2 r hr
      simp only [Bool.and_eq_true, beq_iff_eq, not_and] at n1 n2
      exact ⟨n1 hc, n2 hc⟩
    · intro hall
      have h1 : db.tracked_users.find?
          (fun r2 => r2.chat_id == c && r2.username == some username) = none := by
        rcases hx : db.tracked_users.find?
            (fun r2 => r2.chat_id == c && r2.username == some username) with _ | r0
        · exact hx
        · exfalso
          have hr := List.mem_of_find?_eq_some hx
          have hpr := List.find?_some hx
          simp only [Bool.and_eq_true, beq_iff_eq] at hpr
          exact absurd hpr.2 ((hall r0 hr hpr.1).1)
      have h2 : db.tracked_users.find?
          (fun r2 => r2.chat_id == c && r2.username == some ("@" ++ username)) = none := by
        rcases hx : db.tracked_users.find?
            (fun r2 => r2.chat_id == c && r2.username == some ("@" ++ username)) with _ | r0
        · exact hx
        · exfalso
          have hr := List.mem_of_find?_eq_some hx
          have hpr := List.find?_some hx
          simp only [Bool.and_eq_true, beq_iff_eq] at hpr
          exact absurd hpr.2 ((hall r0 hr hpr.1).2)
      unfold get_user_by_username
      simp only [h1]
      exact h2
  · intro r h
    unfold get_user_by_username
    simp only [h]
  · intro h
    unfold get_user_by_username
    simp only [h]

/-- Store for the C9 witness: the handle of user 7 is stored with the
leading marker, the handle of user 8 without it. -/
def dbC9 : DB := ⟨[⟨1, 7, some "@carol"⟩, ⟨1, 8, some "dave"⟩], [], []⟩

/-- Witness for C9 at a concrete input: looking up the raw handle
reaches the row stored under the marked form. -/
theorem get_user_by_username_dual_witness :
    get_user_by_username dbC9 1 "carol" = some ⟨1, 7, some "@carol"⟩ := by
  have h := (get_user_by_username_dual dbC9 1 "carol").2.2 (by decide)
  rw [h]
  decide

/- ### Claim C10 -/

/-- C10: for every current instant, the clock helper returns a strictly
positive duration of at most one day (the next fixed-timezone midnight
is strictly in the future and no more than 86400 seconds away). -/
theorem seconds_until_midnight_pos_le_day (nowUs : Int) :
    0 < seconds_until_midnight nowUs ∧ seconds_until_midnight nowUs ≤ usPerDay := by
  have hpos : (0 : Int) < usPerDay := by decide
  have h1 : 0 ≤ nowUs.emod usPerDay := Int.emod_nonneg nowUs (by decide)
  have h2 : nowUs.emod usPerDay < usPerDay := Int.emod_lt_of_pos nowUs hpos
  constructor
  · unfold seconds_until_midnight; omega
  · unfold seconds_until_midnight; omega
